import Mathlib

/-!
# SimpleChatRoom: the websocket backend of `main.go`

A shallow embedding of the two goroutine bodies of `main.go`:

* `WebsocketClient.Read` (lines 69-100), the read loop of one session, as a
  function from the results of its successive `ReadJSON` calls to the
  session's final fields and the ordered list of effects it performs;
* `handleMessages` (lines 42-67), the coordinator, as a function handling one
  event received by its `select`, from the `clients` map to the new map and
  the ordered list of effects.

Go strings are modelled by `String` (the texts come out of the JSON decoder,
so they are valid UTF-8), pointers to `WebsocketClient` by natural numbers,
and the `clients` map by its duplicate-free list of keys, in the order in
which a `range` visits them (any order is possible).  The library calls
(`strings.TrimSpace`, `fmt.Sprintf`, `websocket.IsCloseError`,
`websocket.IsUnexpectedCloseError`) follow their documented behaviour.  What
the environment decides (the clock, the result of a `WriteJSON`, the fields a
pointer refers to) is a parameter.
-/

namespace SimpleChatRoom

/-! ## Data model -/

/-- The struct `ChatMessage` (lines 24-29). -/
structure ChatMessage where
  MessageType : String
  Username : String
  Timestamp : String
  Text : String
deriving DecidableEq, Repr

/-- A `*WebsocketClient`: sessions are map keys by pointer identity. -/
abbrev ClientPtr := Nat

/-- The struct `WebsocketClient` (lines 19-22).  The field `Conn` is the
connection handle; the calls made on it are recorded as effects of the client
that owns it. -/
structure WebsocketClient where
  Name : String
deriving DecidableEq, Repr

/-- A non-nil Go `error` value, as far as the program tells errors apart. -/
inductive Error where
  /-- The sentinel `io.EOF`. -/
  | EOF
  /-- A `*websocket.CloseError` with its close code and text. -/
  | CloseError (Code : Nat) (Text : String)
  /-- Any other error. -/
  | other (text : String)
deriving DecidableEq, Repr

/-- The constant `websocket.CloseGoingAway`. -/
def CloseGoingAway : Nat := 1001

/-- The constant `websocket.CloseAbnormalClosure`. -/
def CloseAbnormalClosure : Nat := 1006

/-- The function `websocket.IsCloseError`: the error is a `*CloseError` whose
code is one of `codes`. -/
def IsCloseError (err : Error) (codes : List Nat) : Bool :=
  match err with
  | .CloseError code _ => codes.contains code
  | _ => false

/-- The function `websocket.IsUnexpectedCloseError`: the error is a
`*CloseError` whose code is not one of `expectedCodes`. -/
def IsUnexpectedCloseError (err : Error) (expectedCodes : List Nat) : Bool :=
  match err with
  | .CloseError code _ => !expectedCodes.contains code
  | _ => false

/-- What travels on the three channels `register`, `unregister` and
`broadcaster` (lines 32-34). -/
inductive Event where
  | register (client : ClientPtr)
  | unregister (client : ClientPtr)
  | broadcaster (msg : ChatMessage)
deriving DecidableEq, Repr

/-- The observable effects of the two goroutines, in program order. -/
inductive Effect where
  /-- A line written with `log.Print`, `log.Printf` or `log.Println`. -/
  | log
  /-- A send on one of the three channels. -/
  | send (ev : Event)
  /-- The call `client.Conn.WriteJSON(msg)` and the error it returned. -/
  | WriteJSON (client : ClientPtr) (msg : ChatMessage) (err : Option Error)
  /-- The call `client.Conn.Close()`. -/
  | connClose (client : ClientPtr)
deriving DecidableEq, Repr

/-! ## Library functions on strings -/

/-- The predicate `unicode.IsSpace`: the code points with the Unicode
property White_Space. -/
def IsSpace (c : Char) : Bool :=
  let n := c.toNat
  (9 ≤ n && n ≤ 13) || n = 32 || n = 0x85 || n = 0xA0 || n = 0x1680 ||
    (0x2000 ≤ n && n ≤ 0x200A) || n = 0x2028 || n = 0x2029 || n = 0x202F ||
    n = 0x205F || n = 0x3000

/-- The function `strings.TrimSpace`: the string without its leading and
trailing white space. -/
def TrimSpace (s : String) : String :=
  ⟨((s.data.dropWhile IsSpace).reverse.dropWhile IsSpace).reverse⟩

/-- The builtin `len` on a string: its number of bytes. -/
def len (s : String) : Nat := s.utf8ByteSize

/-- The call `fmt.Sprintf("\"%s\" has joined chat room", name)` of line 91. -/
def joinedText (name : String) : String :=
  "\"" ++ name ++ "\" has joined chat room"

/-! ## The session: `WebsocketClient.Read` -/

/-- One iteration of the loop of `Read` after a successful `ReadJSON`
(lines 83-98): the new fields of the session and the effects. -/
def Read.body (c : WebsocketClient) (msg : ChatMessage) : WebsocketClient × List Effect :=
  let Username := TrimSpace msg.Username
  let renamed : WebsocketClient × List Effect :=
    if c.Name ≠ Username then
      let c1 : WebsocketClient := { c with Name := Username }
      let announce : ChatMessage :=
        { Username := msg.Username
          MessageType := "announce"
          Timestamp := ""
          Text := joinedText c1.Name }
      (c1, [Effect.log, Effect.send (Event.broadcaster announce)])
    else (c, [])
  let said : List Effect :=
    if len (TrimSpace msg.Text) > 0 then
      [Effect.send (Event.broadcaster { msg with MessageType := "message" })]
    else []
  (renamed.1, Effect.log :: renamed.2 ++ said)

/-- The loop of `Read` (lines 74-99) over the results of the successive
`ReadJSON` calls.  The third component tells whether the loop was left by
`break`; when the results run out the session is blocked in `ReadJSON`. -/
def Read.loop : WebsocketClient → List (Except Error ChatMessage) →
    WebsocketClient × List Effect × Bool
  | c, [] => (c, [], false)
  | c, Except.error err :: _ =>
    (c, if IsUnexpectedCloseError err [CloseGoingAway, CloseAbnormalClosure]
        then [Effect.log] else [], true)
  | c, Except.ok msg :: rest =>
    let step := Read.body c msg
    let tail := Read.loop step.1 rest
    (tail.1, step.2 ++ tail.2.1, tail.2.2)

/-- The method `Read` of the session `self` with fields `c` (lines 69-100):
the loop, then the deferred function of lines 70-73 once the loop is left. -/
def Read (self : ClientPtr) (c : WebsocketClient) (reads : List (Except Error ChatMessage)) :
    WebsocketClient × List Effect :=
  let run := Read.loop c reads
  (run.1,
    if run.2.2 then run.2.1 ++ [Effect.send (Event.unregister self), Effect.connClose self]
    else run.2.1)

/-- The messages sent on `broadcaster` among some effects, in order. -/
def published : List Effect → List ChatMessage
  | [] => []
  | Effect.send (Event.broadcaster m) :: es => m :: published es
  | _ :: es => published es

/-- The sends on the three channels among some effects, in order. -/
def requests : List Effect → List Event
  | [] => []
  | Effect.send ev :: es => ev :: requests es
  | _ :: es => requests es

/-! ## The coordinator: `handleMessages` -/

/-- The map `clients` (line 31), a set of client pointers: every stored value
is `true` and no value is ever read, so the map is its duplicate-free list of
keys, in the order in which a `range` visits them. -/
structure Clients where
  keys : List ClientPtr
  nodup : keys.Nodup

/-- The assignment `clients[client] = true` (line 46). -/
def Clients.set (clients : Clients) (client : ClientPtr) : Clients :=
  if h : client ∈ clients.keys then clients
  else ⟨clients.keys ++ [client],
    List.Nodup.append clients.nodup (List.nodup_singleton client)
      (by intro a ha hb; rw [List.mem_singleton] at hb; exact h (hb ▸ ha))⟩

/-- The call `delete(clients, client)` (lines 49 and 60). -/
def Clients.delete (clients : Clients) (client : ClientPtr) : Clients :=
  ⟨clients.keys.filter (fun k => k ≠ client), clients.nodup.filter _⟩

/-- The number of entries of the map, `len(clients)`. -/
def Clients.size (clients : Clients) : Nat := clients.keys.length

/-- What the coordinator takes from its environment while it handles one
event: the fields behind each client pointer, the successive results of
`time.Now().UTC().Format(time.RFC3339)` (the k-th call, counted from 0), and
the error `client.Conn.WriteJSON(msg)` returns. -/
structure Env where
  heap : ClientPtr → WebsocketClient
  now : Nat → String
  write : ClientPtr → ChatMessage → Option Error

/-- The condition of line 57 on the error of a `WriteJSON`:
`err != nil && err != io.EOF && !websocket.IsCloseError(err, websocket.CloseGoingAway)`. -/
def writeFailed (err : Option Error) : Bool :=
  match err with
  | none => false
  | some e => e ≠ Error.EOF && !IsCloseError e [CloseGoingAway]

/-- The body of the `range` loop after the timestamp is set (lines 55-62),
for the client being visited and the stamped message. -/
def handleMessages.deliver (env : Env) (client : ClientPtr) (msg : ChatMessage)
    (clients : Clients) : Clients × List Effect :=
  if (env.heap client).Name ≠ msg.Username then
    let err := env.write client msg
    if writeFailed err then
      (clients.delete client,
        [Effect.WriteJSON client msg err, Effect.log, Effect.connClose client])
    else (clients, [Effect.WriteJSON client msg err])
  else (clients, [])

/-- The loop `for client := range clients` of lines 52-63 over the keys still
to visit, with the number `k` of clock readings made so far, the variable
`msg` and the map.  A key is deleted only during its own iteration, so the
keys to visit are those present when the loop starts. -/
def handleMessages.range (env : Env) :
    List ClientPtr → Nat → ChatMessage → Clients → Clients × List Effect
  | [], _, _, clients => (clients, [])
  | client :: rest, k, msg, clients =>
    let msg : ChatMessage := { msg with Timestamp := env.now k }
    let step := handleMessages.deliver env client msg clients
    let tail := handleMessages.range env rest (k + 1) msg step.1
    (tail.1, Effect.log :: step.2 ++ tail.2)

/-- One iteration of the loop of `handleMessages` (lines 44-65): the event
the `select` received is handled to completion. -/
def handleMessages.select (env : Env) (clients : Clients) : Event → Clients × List Effect
  | Event.register client => (clients.set client, [Effect.log])
  | Event.unregister client => (clients.delete client, [Effect.log])
  | Event.broadcaster msg => handleMessages.range env clients.keys 0 msg clients

/-- The function `handleMessages` (lines 42-67) over the events its `select`
receives, each with the environment in which it is handled. -/
def handleMessages : Clients → List (Env × Event) → Clients × List Effect
  | clients, [] => (clients, [])
  | clients, (env, ev) :: evs =>
    let step := handleMessages.select env clients ev
    let tail := handleMessages step.1 evs
    (tail.1, step.2 ++ tail.2)

/-- The messages passed to `client.Conn.WriteJSON` among some effects, in
order: the delivery attempts to `client`. -/
def deliveries (client : ClientPtr) : List Effect → List ChatMessage
  | [] => []
  | Effect.WriteJSON c m _ :: es =>
    if c = client then m :: deliveries client es else deliveries client es
  | _ :: es => deliveries client es

/-- The messages of a given kind among some messages. -/
def ofKind (kind : String) (ms : List ChatMessage) : List ChatMessage :=
  ms.filter (fun m => m.MessageType = kind)

/-- The announce of lines 88-92 for an inbound message, once the stored name
is the trimmed inbound username. -/
def announceOf (msg : ChatMessage) : ChatMessage :=
  { MessageType := "announce"
    Username := msg.Username
    Timestamp := ""
    Text := joinedText (TrimSpace msg.Username) }

/-! ## Lemmas -/

theorem len_pos_iff (s : String) : len s > 0 ↔ s ≠ "" := by
  rcases s with ⟨l⟩
  cases l with
  | nil => simp [len, String.utf8ByteSize, String.utf8ByteSize.go]
  | cons c cs =>
    have h := Char.utf8Size_pos c
    have hne : (⟨c :: cs⟩ : String) ≠ "" := by
      intro h2
      have h3 := congrArg String.data h2
      simp at h3
    simp only [len, String.utf8ByteSize, String.utf8ByteSize.go, gt_iff_lt, ne_eq, hne,
      not_false_eq_true, iff_true]
    omega

theorem published_append (xs ys : List Effect) :
    published (xs ++ ys) = published xs ++ published ys := by
  induction xs with
  | nil => rfl
  | cons x xs ih =>
    cases x with
    | send ev => cases ev <;> simp [published, ih]
    | log => simp [published, ih]
    | WriteJSON c m e => simp [published, ih]
    | connClose c => simp [published, ih]

theorem requests_append (xs ys : List Effect) :
    requests (xs ++ ys) = requests xs ++ requests ys := by
  induction xs with
  | nil => rfl
  | cons x xs ih => cases x <;> simp [requests, ih]

/-- After an inbound message is handled the stored name is the trimmed
inbound username. -/
theorem body_name (c : WebsocketClient) (msg : ChatMessage) :
    (Read.body c msg).1.Name = TrimSpace msg.Username := by
  unfold Read.body
  by_cases h : c.Name = TrimSpace msg.Username
  · simp [h]
  · simp [h]

/-- The messages a session publishes while it handles an inbound message. -/
theorem body_published (c : WebsocketClient) (msg : ChatMessage) :
    published (Read.body c msg).2 =
      (if c.Name ≠ TrimSpace msg.Username then [announceOf msg] else []) ++
        (if TrimSpace msg.Text ≠ "" then [{ msg with MessageType := "message" }] else []) := by
  have hl := len_pos_iff (TrimSpace msg.Text)
  unfold Read.body
  by_cases h : c.Name = TrimSpace msg.Username
  · by_cases ht : TrimSpace msg.Text = ""
    · have : ¬ len (TrimSpace msg.Text) > 0 := fun h2 => (hl.mp h2) ht
      simp [h, ht, this, published]
    · have : len (TrimSpace msg.Text) > 0 := hl.mpr ht
      simp [h, ht, this, published]
  · by_cases ht : TrimSpace msg.Text = ""
    · have : ¬ len (TrimSpace msg.Text) > 0 := fun h2 => (hl.mp h2) ht
      simp [h, ht, this, published, announceOf]
    · have : len (TrimSpace msg.Text) > 0 := hl.mpr ht
      simp [h, ht, this, published, announceOf]

/-- Every message a session publishes while it handles an inbound message
carries the inbound username as it was received, untrimmed, as its sender. -/
theorem body_sender (c : WebsocketClient) (msg : ChatMessage) :
    ∀ m ∈ published (Read.body c msg).2, m.Username = msg.Username := by
  rw [body_published]
  by_cases h : c.Name = TrimSpace msg.Username <;>
    by_cases ht : TrimSpace msg.Text = "" <;>
    simp [h, ht, announceOf]

/-- For an inbound username without leading or trailing white space, every
message the session publishes has the stored name as its sender. -/
theorem body_sender_trimmed (c : WebsocketClient) (msg : ChatMessage)
    (h : TrimSpace msg.Username = msg.Username) :
    ∀ m ∈ published (Read.body c msg).2, m.Username = (Read.body c msg).1.Name := by
  intro m hm
  rw [body_name, h]
  exact body_sender c msg m hm

/-- The requests of a session that handles an inbound message are all sends
on `broadcaster`. -/
theorem body_requests (c : WebsocketClient) (msg : ChatMessage) :
    requests (Read.body c msg).2 = (published (Read.body c msg).2).map Event.broadcaster := by
  unfold Read.body
  by_cases h : c.Name = TrimSpace msg.Username <;>
    by_cases ht : len (TrimSpace msg.Text) > 0 <;>
    simp [h, ht, published, requests]

theorem body_no_close (c : WebsocketClient) (msg : ChatMessage) (p : ClientPtr) :
    Effect.connClose p ∉ (Read.body c msg).2 := by
  unfold Read.body
  by_cases h : c.Name = TrimSpace msg.Username <;>
    by_cases ht : len (TrimSpace msg.Text) > 0 <;>
    simp [h, ht]

theorem loop_ok_cons (c : WebsocketClient) (msg : ChatMessage)
    (rest : List (Except Error ChatMessage)) :
    Read.loop c (Except.ok msg :: rest) =
      ((Read.loop (Read.body c msg).1 rest).1,
        (Read.body c msg).2 ++ (Read.loop (Read.body c msg).1 rest).2.1,
        (Read.loop (Read.body c msg).1 rest).2.2) := rfl

theorem loop_ok_requests (msgs : List ChatMessage) :
    ∀ c : WebsocketClient,
      requests (Read.loop c (msgs.map Except.ok)).2.1 =
        (published (Read.loop c (msgs.map Except.ok)).2.1).map Event.broadcaster := by
  induction msgs with
  | nil => intro c; simp [Read.loop, requests, published]
  | cons m ms ih =>
    intro c
    simp only [List.map_cons, Read.loop, requests_append, published_append, List.map_append,
      body_requests, ih]

theorem loop_ok_no_close (msgs : List ChatMessage) (p : ClientPtr) :
    ∀ c : WebsocketClient, Effect.connClose p ∉ (Read.loop c (msgs.map Except.ok)).2.1 := by
  induction msgs with
  | nil => intro c; simp [Read.loop]
  | cons m ms ih =>
    intro c
    simp only [List.map_cons, Read.loop, List.mem_append, not_or]
    exact ⟨body_no_close c m p, ih _⟩

/-- The loop of `Read` on messages followed by a failed read: the effects of
the messages, the log line of an unexpected close, and the loop is left. -/
theorem loop_until_error (msgs : List ChatMessage) (err : Error)
    (rest : List (Except Error ChatMessage)) :
    ∀ c : WebsocketClient,
      Read.loop c (msgs.map Except.ok ++ Except.error err :: rest) =
        ((Read.loop c (msgs.map Except.ok)).1,
          (Read.loop c (msgs.map Except.ok)).2.1 ++
            (if IsUnexpectedCloseError err [CloseGoingAway, CloseAbnormalClosure]
              then [Effect.log] else []),
          true) := by
  induction msgs with
  | nil => intro c; simp [Read.loop]
  | cons m ms ih =>
    intro c
    rw [List.map_cons, List.cons_append, loop_ok_cons, loop_ok_cons, ih, List.append_assoc]


theorem Clients.ext_keys {a b : Clients} (h : a.keys = b.keys) : a = b := by
  cases a; cases b; cases h; rfl

theorem deliveries_append (s : ClientPtr) (xs ys : List Effect) :
    deliveries s (xs ++ ys) = deliveries s xs ++ deliveries s ys := by
  induction xs with
  | nil => rfl
  | cons x xs ih =>
    cases x <;> simp [deliveries, ih]
    split <;> simp

/-- The loop overwrites the timestamp before it uses the message. -/
theorem range_timestamp (env : Env) (l : List ClientPtr) (k : Nat) (msg : ChatMessage)
    (ts : String) (clients : Clients) :
    handleMessages.range env l k { msg with Timestamp := ts } clients =
      handleMessages.range env l k msg clients := by
  cases l with
  | nil => rfl
  | cons c rest => rfl

theorem range_cons (env : Env) (c : ClientPtr) (rest : List ClientPtr) (k : Nat)
    (msg : ChatMessage) (clients : Clients) :
    handleMessages.range env (c :: rest) k msg clients =
      ((handleMessages.range env rest (k + 1) msg
          (handleMessages.deliver env c { msg with Timestamp := env.now k } clients).1).1,
        Effect.log ::
          ((handleMessages.deliver env c { msg with Timestamp := env.now k } clients).2 ++
            (handleMessages.range env rest (k + 1) msg
              (handleMessages.deliver env c
                { msg with Timestamp := env.now k } clients).1).2)) := by
  simp only [handleMessages.range, range_timestamp, List.cons_append]

theorem deliver_deliveries (env : Env) (s c : ClientPtr) (msg : ChatMessage)
    (clients : Clients) :
    deliveries s (handleMessages.deliver env c msg clients).2 =
      if c = s ∧ (env.heap c).Name ≠ msg.Username then [msg] else [] := by
  unfold handleMessages.deliver
  by_cases hn : (env.heap c).Name = msg.Username
  · simp [hn, deliveries]
  · by_cases hw : writeFailed (env.write c msg) = true
    · by_cases hcs : c = s
      · subst hcs; simp [hn, hw, deliveries]
      · simp [hn, hw, hcs, deliveries]
    · by_cases hcs : c = s
      · subst hcs; simp [hn, hw, deliveries]
      · simp [hn, hw, hcs, deliveries]

theorem range_deliveries (env : Env) (s : ClientPtr) (l : List ClientPtr) :
    ∀ (k : Nat) (msg : ChatMessage) (clients : Clients), l.Nodup →
      deliveries s (handleMessages.range env l k msg clients).2 =
        if s ∈ l ∧ (env.heap s).Name ≠ msg.Username then
          [{ msg with Timestamp := env.now (k + l.indexOf s) }]
        else [] := by
  induction l with
  | nil => intro k msg clients _; simp [handleMessages.range, deliveries]
  | cons c rest ih =>
    intro k msg clients hnd
    have hc : c ∉ rest := (List.nodup_cons.mp hnd).1
    have hr : rest.Nodup := (List.nodup_cons.mp hnd).2
    rw [range_cons]
    simp only [deliveries, deliveries_append]
    rw [ih (k + 1) msg _ hr, deliver_deliveries]
    by_cases hcs : c = s
    · subst hcs
      by_cases hn : (env.heap c).Name = msg.Username <;> simp [hn, hc]
    · have hsc : s ≠ c := fun h => hcs h.symm
      simp [hcs, hsc, List.indexOf_cons_ne _ hcs, Nat.add_assoc, Nat.add_comm 1]

theorem mem_delete (clients : Clients) (c t : ClientPtr) :
    t ∈ (clients.delete c).keys ↔ t ∈ clients.keys ∧ t ≠ c := by
  simp [Clients.delete]

theorem mem_set (clients : Clients) (c t : ClientPtr) :
    t ∈ (clients.set c).keys ↔ t = c ∨ t ∈ clients.keys := by
  unfold Clients.set
  by_cases h : c ∈ clients.keys
  · rw [dif_pos h]
    constructor
    · intro ht; exact Or.inr ht
    · rintro (rfl | ht)
      · exact h
      · exact ht
  · rw [dif_neg h]
    simp [or_comm]

theorem deliver_keys (env : Env) (t c : ClientPtr) (msg : ChatMessage) (clients : Clients) :
    t ∈ (handleMessages.deliver env c msg clients).1.keys ↔
      t ∈ clients.keys ∧
        ¬ (t = c ∧ (env.heap c).Name ≠ msg.Username ∧
            writeFailed (env.write c msg) = true) := by
  unfold handleMessages.deliver
  by_cases hn : (env.heap c).Name = msg.Username
  · simp [hn]
  · by_cases hw : writeFailed (env.write c msg) = true
    · simp [hn, hw, mem_delete]
    · simp [hn, hw]

theorem deliver_close (env : Env) (t c : ClientPtr) (msg : ChatMessage) (clients : Clients) :
    Effect.connClose t ∈ (handleMessages.deliver env c msg clients).2 ↔
      t = c ∧ (env.heap c).Name ≠ msg.Username ∧ writeFailed (env.write c msg) = true := by
  unfold handleMessages.deliver
  by_cases hn : (env.heap c).Name = msg.Username
  · simp [hn]
  · by_cases hw : writeFailed (env.write c msg) = true
    · simp [hn, hw]
    · simp [hn, hw]

theorem range_keys (env : Env) (t : ClientPtr) (l : List ClientPtr) :
    ∀ (k : Nat) (msg : ChatMessage) (clients : Clients), l.Nodup →
      (t ∈ (handleMessages.range env l k msg clients).1.keys ↔
        t ∈ clients.keys ∧
          ¬ (t ∈ l ∧ (env.heap t).Name ≠ msg.Username ∧
              writeFailed (env.write t
                { msg with Timestamp := env.now (k + l.indexOf t) }) = true)) := by
  induction l with
  | nil => intro k msg clients _; simp [handleMessages.range]
  | cons c rest ih =>
    intro k msg clients hnd
    have hc : c ∉ rest := (List.nodup_cons.mp hnd).1
    have hr : rest.Nodup := (List.nodup_cons.mp hnd).2
    rw [range_cons]
    simp only []
    rw [ih (k + 1) msg _ hr, deliver_keys]
    by_cases hcs : c = t
    · subst hcs
      simp [hc]
    · have htc : t ≠ c := fun h => hcs h.symm
      simp [htc, List.indexOf_cons_ne _ hcs, Nat.add_assoc, Nat.add_comm 1]

theorem range_close (env : Env) (t : ClientPtr) (l : List ClientPtr) :
    ∀ (k : Nat) (msg : ChatMessage) (clients : Clients), l.Nodup →
      (Effect.connClose t ∈ (handleMessages.range env l k msg clients).2 ↔
        t ∈ l ∧ (env.heap t).Name ≠ msg.Username ∧
          writeFailed (env.write t
            { msg with Timestamp := env.now (k + l.indexOf t) }) = true) := by
  induction l with
  | nil => intro k msg clients _; simp [handleMessages.range]
  | cons c rest ih =>
    intro k msg clients hnd
    have hc : c ∉ rest := (List.nodup_cons.mp hnd).1
    have hr : rest.Nodup := (List.nodup_cons.mp hnd).2
    rw [range_cons]
    simp only [List.mem_cons, List.mem_append, false_or]
    rw [ih (k + 1) msg _ hr, deliver_close]
    by_cases hcs : c = t
    · subst hcs
      simp [hc]
    · have htc : t ≠ c := fun h => hcs h.symm
      simp [htc, List.indexOf_cons_ne _ hcs, Nat.add_assoc, Nat.add_comm 1]

theorem size_delete (clients : Clients) (c : ClientPtr) :
    (clients.delete c).size + (if c ∈ clients.keys then 1 else 0) = clients.size := by
  rcases clients with ⟨l, hl⟩
  simp only [Clients.delete, Clients.size]
  induction l with
  | nil => simp
  | cons a rest ih =>
    have ha : a ∉ rest := (List.nodup_cons.mp hl).1
    have hr := ih (List.nodup_cons.mp hl).2
    by_cases hac : a = c
    · subst hac
      have hf : rest.filter (fun k => decide (k ≠ a)) = rest := by
        rw [List.filter_eq_self]
        intro x hx
        have : x ≠ a := fun h => ha (h ▸ hx)
        simp [this]
      simp [hf]
      intro x hx h
      exact ha (h ▸ hx)
    · have hca : ¬ c = a := fun h => hac h.symm
      simp only [List.filter_cons, ne_eq, hac, not_false_eq_true, decide_True, if_true,
        List.length_cons, List.mem_cons, hca, false_or]
      simp only [ne_eq] at hr
      omega

theorem delete_absent (clients : Clients) (c : ClientPtr) (h : c ∉ clients.keys) :
    clients.delete c = clients := by
  apply Clients.ext_keys
  simp only [Clients.delete]
  rw [List.filter_eq_self]
  intro x hx
  have : x ≠ c := fun h2 => h (h2 ▸ hx)
  simp [this]

theorem size_set (clients : Clients) (c : ClientPtr) :
    (clients.set c).size = if c ∈ clients.keys then clients.size else clients.size + 1 := by
  unfold Clients.set
  by_cases h : c ∈ clients.keys
  · simp [h]
  · simp [h, Clients.size]

/-- The condition of line 57 in words: the write returned an error that is
neither `io.EOF` nor a close error with the code "going away". -/
theorem writeFailed_iff (err : Option Error) :
    writeFailed err = true ↔
      ∃ e, err = some e ∧ e ≠ Error.EOF ∧ ∀ text, e ≠ Error.CloseError CloseGoingAway text := by
  cases err with
  | none => simp [writeFailed]
  | some e =>
    cases e with
    | EOF => simp [writeFailed]
    | CloseError code text =>
      by_cases h : code = CloseGoingAway
      · subst h; simp [writeFailed, IsCloseError]
      · have h2 : ¬ CloseGoingAway = code := fun h3 => h h3.symm
        simp [writeFailed, IsCloseError, h, h2]
    | other text => simp [writeFailed, IsCloseError]

end SimpleChatRoom

namespace SimpleChatRoom

/-! ## The session's claims -/

/-- C3, at an inbound username with a leading blank: the session stores the
trimmed name "alice", but both requests it emits (the announce and the
message) carry the untrimmed " alice" as sender, so the sender differs from
the stored name; and the coordinator, comparing by name, then delivers the
session's own message back to it. -/
theorem C3_sender_is_untrimmed_username :
    (Read.body ⟨""⟩ ⟨"", " alice", "", "hi"⟩).1.Name = "alice" ∧
    published (Read.body ⟨""⟩ ⟨"", " alice", "", "hi"⟩).2 =
      [⟨"announce", " alice", "", "\"alice\" has joined chat room"⟩,
        ⟨"message", " alice", "", "hi"⟩] ∧
    (∀ m ∈ published (Read.body ⟨""⟩ ⟨"", " alice", "", "hi"⟩).2,
      m.Username ≠ (Read.body ⟨""⟩ ⟨"", " alice", "", "hi"⟩).1.Name) ∧
    deliveries 7
      (handleMessages.select ⟨fun _ => ⟨"alice"⟩, fun _ => "t", fun _ _ => none⟩
        ⟨[7], List.nodup_singleton 7⟩
        (Event.broadcaster ⟨"message", " alice", "", "hi"⟩)).2 =
      [⟨"message", " alice", "t", "hi"⟩] := by
  decide

/-- C4, refuted as stated: a session named "alice" that receives a message
with an empty username is renamed to the empty name and emits an announce. -/
theorem C4_empty_username_resets_name :
    TrimSpace "" = "" ∧
    (Read.body ⟨"alice"⟩ ⟨"", "", "", ""⟩).1.Name = "" ∧
    published (Read.body ⟨"alice"⟩ ⟨"", "", "", ""⟩).2 =
      [⟨"announce", "", "", "\"\" has joined chat room"⟩] := by
  decide

/-- C4, amended: handling an inbound message sets the stored name to the
trimmed username, and emits an announce (exactly one), if and only if the
trimmed username differs from the stored name, whether it is empty or not;
otherwise the name is unchanged and no announce is emitted. -/
theorem C4_rename_iff_trimmed_username_differs (c : WebsocketClient) (msg : ChatMessage) :
    (Read.body c msg).1.Name =
      (if c.Name ≠ TrimSpace msg.Username then TrimSpace msg.Username else c.Name) ∧
    ofKind "announce" (published (Read.body c msg).2) =
      (if c.Name ≠ TrimSpace msg.Username then [announceOf msg] else []) := by
  constructor
  · rw [body_name]
    by_cases h : c.Name = TrimSpace msg.Username <;> simp [h]
  · rw [body_published]
    by_cases h : c.Name = TrimSpace msg.Username <;>
      by_cases ht : TrimSpace msg.Text = "" <;>
      simp [h, ht, ofKind, announceOf]

/-- C5: a session emits a request of kind "message" (exactly one, the inbound
message itself) if and only if the inbound text is non-empty after trimming,
whatever the stored name and the inbound username are. -/
theorem C5_message_iff_text_nonempty (c : WebsocketClient) (msg : ChatMessage) :
    ((∃ m ∈ published (Read.body c msg).2, m.MessageType = "message") ↔
      TrimSpace msg.Text ≠ "") ∧
    ofKind "message" (published (Read.body c msg).2) =
      (if TrimSpace msg.Text ≠ "" then [{ msg with MessageType := "message" }] else []) := by
  rw [body_published]
  by_cases h : c.Name = TrimSpace msg.Username <;>
    by_cases ht : TrimSpace msg.Text = "" <;>
    simp [h, ht, ofKind, announceOf]

/-- C9, refuted as stated: a fresh session that receives the username "Alice"
with an empty text emits exactly one announce, whose text is
"Alice" in double quotes followed by " has joined chat room"; that text does
not contain "Alice has joined". -/
theorem C9_announce_text_quotes_name :
    published (Read.body ⟨""⟩ ⟨"", "Alice", "", ""⟩).2 =
      [⟨"announce", "Alice", "", "\"Alice\" has joined chat room"⟩] ∧
    ¬ ("Alice has joined".data <:+: "\"Alice\" has joined chat room".data) := by
  decide

/-- C9, amended: when an inbound message makes a session emit an announce
for the new name, that announce is the only one, has kind "announce", and
its text is the new name in double quotes followed by " has joined chat
room". -/
theorem C9_announce_text (c : WebsocketClient) (msg : ChatMessage)
    (h : c.Name ≠ TrimSpace msg.Username) :
    ∃ a, ofKind "announce" (published (Read.body c msg).2) = [a] ∧
      a.MessageType = "announce" ∧
      a.Text = "\"" ++ (Read.body c msg).1.Name ++ "\" has joined chat room" := by
  refine ⟨announceOf msg, ?_, rfl, ?_⟩
  · rw [body_published]
    by_cases ht : TrimSpace msg.Text = "" <;> simp [h, ht, ofKind, announceOf]
  · rw [body_name]; rfl

/-- C9, amended, at the inbound message with username "Alice" and an empty
text sent by a fresh session. -/
theorem C9_announce_text_witness :
    ("" : String) ≠ TrimSpace "Alice" ∧
    ∃ a, ofKind "announce" (published (Read.body ⟨""⟩ ⟨"", "Alice", "", ""⟩).2) = [a] ∧
      a.MessageType = "announce" ∧
      a.Text = "\"" ++ (Read.body ⟨""⟩ ⟨"", "Alice", "", ""⟩).1.Name ++
        "\" has joined chat room" :=
  ⟨by decide, C9_announce_text ⟨""⟩ ⟨"", "Alice", "", ""⟩ (by decide)⟩

/-- C10: when the reads of a session are some messages followed by a failed
read, of any kind, `Read` performs the effects of those messages, then sends
`Unregister` for the session and closes its connection, and nothing else: the
`Unregister` is sent once, it is the last request, the messages published are
those of the messages read before the failure, and the close is the last
effect. -/
theorem C10_unregister_once_and_last (self : ClientPtr) (c : WebsocketClient)
    (msgs : List ChatMessage) (err : Error) (rest : List (Except Error ChatMessage)) :
    (Read self c (msgs.map Except.ok ++ Except.error err :: rest)).2 =
      (Read.loop c (msgs.map Except.ok)).2.1 ++
        (if IsUnexpectedCloseError err [CloseGoingAway, CloseAbnormalClosure]
          then [Effect.log] else []) ++
        [Effect.send (Event.unregister self), Effect.connClose self] ∧
    requests (Read self c (msgs.map Except.ok ++ Except.error err :: rest)).2 =
      (published (Read.loop c (msgs.map Except.ok)).2.1).map Event.broadcaster ++
        [Event.unregister self] ∧
    (requests (Read self c (msgs.map Except.ok ++ Except.error err :: rest)).2).count
      (Event.unregister self) = 1 ∧
    (requests (Read self c (msgs.map Except.ok ++ Except.error err :: rest)).2).getLast? =
      some (Event.unregister self) ∧
    published (Read self c (msgs.map Except.ok ++ Except.error err :: rest)).2 =
      published (Read.loop c (msgs.map Except.ok)).2.1 ∧
    (Read self c (msgs.map Except.ok ++ Except.error err :: rest)).2.count
      (Effect.connClose self) = 1 ∧
    (Read self c (msgs.map Except.ok ++ Except.error err :: rest)).2.getLast? =
      some (Effect.connClose self) := by
  have hout : (Read self c (msgs.map Except.ok ++ Except.error err :: rest)).2 =
      (Read.loop c (msgs.map Except.ok)).2.1 ++
        (if IsUnexpectedCloseError err [CloseGoingAway, CloseAbnormalClosure]
          then [Effect.log] else []) ++
        [Effect.send (Event.unregister self), Effect.connClose self] := by
    simp only [Read, loop_until_error, if_true]
  have hlog : ∀ b : Bool, requests (if b then [Effect.log] else []) = [] ∧
      published (if b then [Effect.log] else []) = [] ∧
      Effect.connClose self ∉ (if b = true then [Effect.log] else []) := by
    intro b; cases b <;> simp [requests, published]
  have hreq : requests (Read self c (msgs.map Except.ok ++ Except.error err :: rest)).2 =
      (published (Read.loop c (msgs.map Except.ok)).2.1).map Event.broadcaster ++
        [Event.unregister self] := by
    rw [hout, requests_append, requests_append, loop_ok_requests, (hlog _).1]
    simp [requests]
  refine ⟨hout, hreq, ?_, ?_, ?_, ?_, ?_⟩
  · rw [hreq, List.count_append]
    have h0 : List.count (Event.unregister self)
        ((published (Read.loop c (msgs.map Except.ok)).2.1).map Event.broadcaster) = 0 := by
      rw [List.count_eq_zero]
      intro hmem
      rcases List.mem_map.mp hmem with ⟨m, _, hm⟩
      cases hm
    rw [h0]; simp
  · rw [hreq, List.getLast?_concat]
  · rw [hout, published_append, published_append, (hlog _).2.1]
    simp [published]
  · rw [hout, List.count_append, List.count_append]
    have h1 := List.count_eq_zero.mpr (loop_ok_no_close msgs self c)
    have h2 := List.count_eq_zero.mpr
      (hlog (IsUnexpectedCloseError err [CloseGoingAway, CloseAbnormalClosure])).2.2
    rw [h1, h2]
    simp [List.count_cons]
  · rw [hout]
    simp

end SimpleChatRoom

namespace SimpleChatRoom

/-! ## The coordinator's claims -/

/-- C1: when the coordinator handles a published message, a delivery to a
registered session is attempted if and only if the session's stored name
differs, as a string, from the message's sender name; it is attempted at most
once (exactly once when the names differ, never when they are equal), and
what is delivered is the message, up to its timestamp. -/
theorem C1_delivery_iff_name_differs (env : Env) (clients : Clients) (m : ChatMessage)
    (s : ClientPtr) (hs : s ∈ clients.keys) :
    ((∃ d, d ∈ deliveries s (handleMessages.select env clients (Event.broadcaster m)).2) ↔
      (env.heap s).Name ≠ m.Username) ∧
    (deliveries s (handleMessages.select env clients (Event.broadcaster m)).2).length ≤ 1 ∧
    (deliveries s (handleMessages.select env clients (Event.broadcaster m)).2).length =
      (if (env.heap s).Name = m.Username then 0 else 1) ∧
    (∀ d ∈ deliveries s (handleMessages.select env clients (Event.broadcaster m)).2,
      d.MessageType = m.MessageType ∧ d.Username = m.Username ∧ d.Text = m.Text) := by
  have h := range_deliveries env s clients.keys 0 m clients clients.nodup
  simp only [handleMessages.select]
  rw [h]
  by_cases hn : (env.heap s).Name = m.Username
  · simp [hn]
  · simp [hn, hs]

/-- C1, for two sessions that are both named "alice" and a third named "bob",
and a message of sender "alice". -/
theorem C1_delivery_iff_name_differs_witness :
    3 ∈ [1, 2, 3] ∧
    (deliveries 3
      (handleMessages.select
        ⟨fun p => if p = 3 then ⟨"bob"⟩ else ⟨"alice"⟩, fun _ => "t", fun _ _ => none⟩
        ⟨[1, 2, 3], by decide⟩
        (Event.broadcaster ⟨"message", "alice", "", "hi"⟩)).2).length =
      (if ("bob" : String) = "alice" then 0 else 1) :=
  ⟨by decide,
    (C1_delivery_iff_name_differs
      ⟨fun p => if p = 3 then ⟨"bob"⟩ else ⟨"alice"⟩, fun _ => "t", fun _ _ => none⟩
      ⟨[1, 2, 3], by decide⟩ ⟨"message", "alice", "", "hi"⟩ 3 (by decide)).2.2.1⟩

/-- C2: handling a published message does not depend on the timestamp the
message carried, in the registry it leaves or in any effect; and the copy
delivered to a session carries the clock reading made in that session's
iteration of the dispatch loop. -/
theorem C2_timestamp_is_clock_reading (env : Env) (clients : Clients) (m : ChatMessage)
    (ts : String) (s : ClientPtr) :
    handleMessages.select env clients (Event.broadcaster { m with Timestamp := ts }) =
      handleMessages.select env clients (Event.broadcaster m) ∧
    deliveries s (handleMessages.select env clients (Event.broadcaster m)).2 =
      (if s ∈ clients.keys ∧ (env.heap s).Name ≠ m.Username then
        [{ m with Timestamp := env.now (clients.keys.indexOf s) }]
      else []) := by
  constructor
  · simp only [handleMessages.select]
    exact range_timestamp env clients.keys 0 m ts clients
  · have h := range_deliveries env s clients.keys 0 m clients clients.nodup
    simp only [handleMessages.select]
    rw [h, Nat.zero_add]

/-- C6: after the coordinator handles a published message, the registry
holds the sessions it held before except those whose name differs from the
sender (so a delivery was attempted) and whose delivery returned an error
that is neither `io.EOF` nor a "going away" close error; those sessions, and
no others, have their connection closed. -/
theorem C6_failed_delivery_removes (env : Env) (clients : Clients) (m : ChatMessage)
    (t : ClientPtr) :
    (t ∈ (handleMessages.select env clients (Event.broadcaster m)).1.keys ↔
      t ∈ clients.keys ∧
        ¬ ((env.heap t).Name ≠ m.Username ∧
          ∃ e, env.write t { m with Timestamp := env.now (clients.keys.indexOf t) } = some e ∧
            e ≠ Error.EOF ∧ ∀ text, e ≠ Error.CloseError CloseGoingAway text)) ∧
    (Effect.connClose t ∈ (handleMessages.select env clients (Event.broadcaster m)).2 ↔
      t ∈ clients.keys ∧ (env.heap t).Name ≠ m.Username ∧
        ∃ e, env.write t { m with Timestamp := env.now (clients.keys.indexOf t) } = some e ∧
          e ≠ Error.EOF ∧ ∀ text, e ≠ Error.CloseError CloseGoingAway text) := by
  have hk := range_keys env t clients.keys 0 m clients clients.nodup
  have hc := range_close env t clients.keys 0 m clients clients.nodup
  simp only [handleMessages.select]
  rw [hk, hc, Nat.zero_add, writeFailed_iff]
  constructor
  · constructor
    · rintro ⟨h1, h2⟩
      exact ⟨h1, fun h3 => h2 ⟨h1, h3⟩⟩
    · rintro ⟨h1, h2⟩
      exact ⟨h1, fun h3 => h2 h3.2⟩
  · rfl

/-- C7: handling `Unregister` of a session leaves a registry without that
session and with every other session it held; if the session was absent the
registry is unchanged; handling it twice gives the registry of handling it
once; and the size drops by one exactly when the session was present. -/
theorem C7_unregister_idempotent (env : Env) (clients : Clients) (s : ClientPtr) :
    s ∉ (handleMessages.select env clients (Event.unregister s)).1.keys ∧
    (∀ t, t ≠ s →
      (t ∈ (handleMessages.select env clients (Event.unregister s)).1.keys ↔
        t ∈ clients.keys)) ∧
    (s ∉ clients.keys → (handleMessages.select env clients (Event.unregister s)).1 = clients) ∧
    (handleMessages clients [(env, Event.unregister s), (env, Event.unregister s)]).1 =
      (handleMessages clients [(env, Event.unregister s)]).1 ∧
    (handleMessages.select env clients (Event.unregister s)).1.size +
      (if s ∈ clients.keys then 1 else 0) = clients.size ∧
    (handleMessages clients [(env, Event.unregister s), (env, Event.unregister s)]).1.size =
      (handleMessages.select env clients (Event.unregister s)).1.size := by
  have hs : s ∉ (clients.delete s).keys := by simp [mem_delete]
  have h2 : (clients.delete s).delete s = clients.delete s := delete_absent _ _ hs
  refine ⟨hs, ?_, ?_, ?_, ?_, ?_⟩
  · intro t ht
    simp [handleMessages.select, mem_delete, ht]
  · intro h
    exact delete_absent clients s h
  · simp only [handleMessages, handleMessages.select]
    exact h2
  · exact size_delete clients s
  · simp only [handleMessages, handleMessages.select]
    rw [h2]

/-- C8, refuted as stated: registering a session that the registry already
holds leaves the size of the registry unchanged. -/
theorem C8_register_present_keeps_size :
    (handleMessages.select ⟨fun _ => ⟨""⟩, fun _ => "", fun _ _ => none⟩
      ⟨[1], List.nodup_singleton 1⟩ (Event.register 1)).1.size = 1 ∧
    Clients.size ⟨[1], List.nodup_singleton 1⟩ = 1 := by
  decide

/-- C8, amended: handling `Register` of a session always yields a registry
that holds that session and every session it held before, and no other; its
size grows by exactly one when the session was not registered yet, and is
unchanged when it already was. -/
theorem C8_register_adds_session (env : Env) (clients : Clients) (s : ClientPtr) :
    s ∈ (handleMessages.select env clients (Event.register s)).1.keys ∧
    (∀ t, t ∈ (handleMessages.select env clients (Event.register s)).1.keys ↔
      t = s ∨ t ∈ clients.keys) ∧
    (handleMessages.select env clients (Event.register s)).1.size =
      (if s ∈ clients.keys then clients.size else clients.size + 1) := by
  refine ⟨?_, ?_, ?_⟩
  · simp [handleMessages.select, mem_set]
  · intro t
    simp [handleMessages.select, mem_set]
  · exact size_set clients s

end SimpleChatRoom
